import Mathlib

/-!
Shallow embedding of the process-supervision core of the repository:
`code_runner.py` (`execute_python_code`, `run_web_server`, `run_main_web_app`,
`run_main_as_console_app`) and `web_utils.py` (`_is_port_open`,
`_create_output_reader_thread`, `_kill_process_tree`).

Modelling conventions:
- Time advances in poll ticks.  One probe tick of `run_web_server` is one
  0.2 s poll iteration; one tick of the `run_main_web_app` supervision loop is
  one 1 s iteration; one tick of `run_main_as_console_app` is one 0.1 s
  iteration.  Timeouts are natural numbers of seconds; `None` is `Option.none`.
- The outside world (what `process.poll()` reports, which ports accept a TCP
  connect, what the reader thread has appended to `output_lines`, the elapsed
  wall-clock time, injected exceptions and `KeyboardInterrupt`s) is an
  environment record of functions of the tick, so the supervision code is a
  deterministic function of that environment.
- Unbounded `while True` loops take a fuel argument; exhausted fuel yields a
  distinguished `outOfFuel` outcome that corresponds to no source behaviour.
- Calls to the kill primitives are recorded in the outcome (`killedTree`,
  `killedRoot`) rather than performed.
-/

/-- The literal crash marker scanned for in service output
(`code_runner.py` line 138). -/
def crashMarker : String := "Traceback (most recent call last)"

/-- Is `pre` a prefix of the second list?  Character-level helper for the
substring test. -/
def charsPrefix : List Char → List Char → Bool
  | [], _ => true
  | _ :: _, [] => false
  | a :: as, b :: bs => a == b && charsPrefix as bs

/-- Does `sub` occur as a contiguous substring of the second list? -/
def charsContains (sub : List Char) : List Char → Bool
  | [] => charsPrefix sub []
  | c :: cs => charsPrefix sub (c :: cs) || charsContains sub cs

/-- Python `"Traceback (most recent call last)" in line`
(`code_runner.py` line 138). -/
def containsMarker (line : String) : Bool :=
  charsContains crashMarker.toList line.toList

/-- The crash scan of `run_main_web_app` (lines 137-140): walk the drained
batch and, at the first line containing the marker, return that line joined by
newlines with every following line of the batch
(`"\n".join(new_lines[i:])`). -/
def crashTail : List String → Option String
  | [] => none
  | line :: rest =>
    if containsMarker line then some (String.intercalate ("\n") (line :: rest))
    else crashTail rest

/-- Environment of one service start: what `run_web_server` observes at each
probe tick.  `exited t` is `process.poll() is not None` at tick `t`;
`portOpen t p` is `_is_port_open("127.0.0.1", p)` at tick `t`. -/
structure ProbeEnv where
  exited : Nat → Bool
  portOpen : Nat → Nat → Bool

/-- Result of `run_web_server` (lines 85-105). -/
inductive ProbeResult
  | neverBound
  | startTimeout
  | bound (url : String)
deriving DecidableEq

/-- The fixed candidate port list (line 81). -/
def defaultPorts : List Nat := [5000, 8000, 8080, 3000, 8501]

/-- The URL built for an open port (line 92). -/
def urlOf (p : Nat) : String := "http://127.0.0.1:" ++ toString p

/-- The inner for-loop over candidate ports (lines 90-93): the first port of
the list found open at probe tick `t`. -/
def firstOpenPort (env : ProbeEnv) (t : Nat) : Option Nat :=
  defaultPorts.find? (fun p => env.portOpen t p)

/-- The while-loop of `run_web_server` (lines 85-98).  `remaining` counts the
poll iterations left in the wait window, `t` is the current probe tick.  The
exit check (line 86) precedes the port scan within each iteration. -/
def webServerLoop (env : ProbeEnv) : Nat → Nat → ProbeResult
  | 0, _ => ProbeResult.startTimeout
  | remaining+1, t =>
    if env.exited t then ProbeResult.neverBound
    else
      match firstOpenPort env t with
      | some p => ProbeResult.bound (urlOf p)
      | none => webServerLoop env remaining (t+1)

/-- `run_web_server` with a wait window of `maxTicks` poll iterations.  The
source default is `max_wait = 15` s at `poll = 0.2` s, i.e. 75 iterations
(`defaultMaxWaitTicks`). -/
def run_web_server (env : ProbeEnv) (maxTicks : Nat) : ProbeResult :=
  webServerLoop env maxTicks 0

/-- The default wait window of `run_web_server` in poll iterations. -/
def defaultMaxWaitTicks : Nat := 75

/-- A process as seen by psutil at termination time: its pid and whether it
still exists when `terminate()` is attempted on it. -/
structure PsProc where
  pid : Nat
  alive : Bool
deriving DecidableEq

/-- Input of `_kill_process_tree` (`web_utils.py` lines 56-63): the root pid,
whether the root exists when `psutil.Process(proc.pid)` and the child
enumeration run, the recursive descendants in enumeration order (each with its
aliveness at the moment its `terminate()` runs), and whether the root still
exists when `parent.terminate()` finally runs. -/
structure KillInput where
  rootPid : Nat
  rootExists : Bool
  children : List PsProc
  rootAliveAtTerminate : Bool
deriving DecidableEq

/-- Which pids received a terminate signal, in sending order, and whether the
root was one of them. -/
structure KillOutcome where
  signaled : List Nat
  rootSignaled : Bool
deriving DecidableEq

/-- The `for child in parent.children(recursive=True): child.terminate()` loop
of `_kill_process_tree`.  Returns the pids signaled and whether the loop ran to
completion: terminating a vanished child raises `psutil.NoSuchProcess`, and the
single `except` clause around the whole body then abandons the loop. -/
def killChildrenLoop : List PsProc → List Nat × Bool
  | [] => ([], true)
  | c :: rest =>
    if c.alive then
      let r := killChildrenLoop rest
      (c.pid :: r.1, r.2)
    else ([], false)

/-- `_kill_process_tree` (`web_utils.py` lines 56-63): look the root up, send
`terminate()` to each recursive descendant, then to the root.  A
`psutil.NoSuchProcess` raised anywhere in the body is caught by the single
handler, skipping everything after the raise point. -/
def _kill_process_tree (inp : KillInput) : KillOutcome :=
  if inp.rootExists then
    let r := killChildrenLoop inp.children
    if r.2 then
      if inp.rootAliveAtTerminate then
        { signaled := r.1 ++ [inp.rootPid], rootSignaled := true }
      else
        { signaled := r.1, rootSignaled := false }
    else
      { signaled := r.1, rootSignaled := false }
  else
    { signaled := [], rootSignaled := false }

/-- `process.kill()` as used by the console runner (`code_runner.py` lines 208
and 224) and by `execute_python_code` (line 41): it signals only the root pid,
never any descendant. -/
def processKill (rootPid : Nat) : List Nat := [rootPid]

/-- Environment of one service supervision session: what the poll loop of
`run_main_web_app` observes at each tick.  `buffer t` is the cumulative content
of the shared `output_lines` list at tick `t`, as appended by the reader thread
of `_create_output_reader_thread`; `exited t` is `process.poll() is not None`;
`elapsed t` is `time.time() - start_time` in whole seconds; `raiseAt t` injects
an unexpected exception surfacing at the top of tick `t`; `interruptAt t` a
`KeyboardInterrupt` delivered at the top of tick `t`. -/
structure WebEnv where
  buffer : Nat → List String
  exited : Nat → Bool
  elapsed : Nat → Nat
  raiseAt : Nat → Option String
  interruptAt : Nat → Bool

/-- How a `run_main_web_app` call ended. -/
inductive AppExit
  | neverBound
  | startTimeout
  | crashed
  | unexpectedExit
  | timedOut
  | interrupted
  | uncaughtExn
  | outOfFuel
deriving DecidableEq

/-- Observable outcome of one `run_main_web_app` call: the returned value
(`True`/`False`, or `none` when an exception propagates uncaught or fuel ran
out), the `server_error` field of `result_container`, the `server_url` field,
the message of a propagated exception, whether `_kill_process_tree` was
invoked, and the tick at which the call ended. -/
structure RunOutcome where
  exit : AppExit
  retVal : Option Bool
  serverError : Option String
  serverUrl : Option String
  exnMsg : Option String
  killedTree : Bool
  endTick : Nat
deriving DecidableEq

/-- Python `if run_timeout and time.time() - start_time > run_timeout:`
(`code_runner.py` line 151; line 207 is the console twin): `None` and `0` are
both falsy, so neither arms the timeout. -/
def timeoutGuard (rt : Option Nat) (elapsed : Nat) : Bool :=
  match rt with
  | none => false
  | some v => v != 0 && decide (v < elapsed)

/-- The supervision loop of `run_main_web_app` (lines 132-162), one tick per
iteration, carrying the output cursor `last_len` (lines 129 and 136).  Per
tick: an injected exception propagates (only `KeyboardInterrupt` is caught, at
line 158); a `KeyboardInterrupt` kills the tree if the process is still alive
and returns `True` (lines 158-162); otherwise the new lines since the cursor
are drained and scanned for the crash marker (lines 135-142, kill plus
`False`); then the exit check (lines 145-148, `False`, no kill); then the
timeout check (lines 151-154, kill plus `True`); then sleep and repeat. -/
def webAppLoop (env : WebEnv) (rt : Option Nat) : Nat → Nat → Nat → RunOutcome
  | 0, t, _ =>
    { exit := AppExit.outOfFuel, retVal := none, serverError := none,
      serverUrl := none, exnMsg := none, killedTree := false, endTick := t }
  | fuel+1, t, lastLen =>
    match env.raiseAt t with
    | some msg =>
      { exit := AppExit.uncaughtExn, retVal := none, serverError := none,
        serverUrl := none, exnMsg := some msg, killedTree := false, endTick := t }
    | none =>
      if env.interruptAt t then
        if env.exited t then
          { exit := AppExit.interrupted, retVal := some true, serverError := none,
            serverUrl := none, exnMsg := none, killedTree := false, endTick := t }
        else
          { exit := AppExit.interrupted, retVal := some true, serverError := none,
            serverUrl := none, exnMsg := none, killedTree := true, endTick := t }
      else
        match crashTail ((env.buffer t).drop lastLen) with
        | some tb =>
          { exit := AppExit.crashed, retVal := some false, serverError := some tb,
            serverUrl := none, exnMsg := none, killedTree := true, endTick := t }
        | none =>
          if env.exited t then
            { exit := AppExit.unexpectedExit, retVal := some false,
              serverError := some ("Web server stopped unexpectedly"),
              serverUrl := none, exnMsg := none, killedTree := false, endTick := t }
          else if timeoutGuard rt (env.elapsed t) then
            { exit := AppExit.timedOut, retVal := some true, serverError := none,
              serverUrl := none, exnMsg := none, killedTree := true, endTick := t }
          else
            webAppLoop env rt fuel (t+1) (env.buffer t).length

/-- `run_main_web_app` (lines 109-162): start the web server; on a start
failure record `server_error` and return `False` with no kill of any kind
(lines 118-120); otherwise record the url and enter the supervision loop. -/
def run_main_web_app (penv : ProbeEnv) (wenv : WebEnv) (maxTicks : Nat)
    (rt : Option Nat) (fuel : Nat) : RunOutcome :=
  match run_web_server penv maxTicks with
  | ProbeResult.neverBound =>
    { exit := AppExit.neverBound, retVal := some false,
      serverError := some ("Server exited unexpectedly"), serverUrl := none,
      exnMsg := none, killedTree := false, endTick := 0 }
  | ProbeResult.startTimeout =>
    { exit := AppExit.startTimeout, retVal := some false,
      serverError := some ("Server did not start in time"), serverUrl := none,
      exnMsg := none, killedTree := false, endTick := 0 }
  | ProbeResult.bound url =>
    { webAppLoop wenv rt fuel 0 0 with serverUrl := some url }

/-- Environment of one console run: `ret t` is `process.poll()` at tick `t`
(the exit code once the child has exited), `stderrAt t` the contents of the
stderr temp file when read at tick `t`, `elapsed t` the elapsed seconds,
`raiseAt t` an unexpected exception surfacing at the top of tick `t`. -/
structure ConsoleEnv where
  ret : Nat → Option Int
  stderrAt : Nat → String
  elapsed : Nat → Nat
  raiseAt : Nat → Option String

/-- Observable outcome of one `run_main_as_console_app` call, mirroring the
result dict of lines 198-235 plus bookkeeping: whether a child was spawned and
whether `process.kill()` (root only) ran. -/
structure ConsoleOutcome where
  success : Option Bool
  errorMsg : Option String
  returncode : Option Int
  stderrOut : Option String
  spawned : Bool
  killedRoot : Bool
  endTick : Nat
deriving DecidableEq

/-- The poll loop of `run_main_as_console_app` (lines 190-235).  Per tick: an
injected exception hits the `except Exception` handler (lines 223-235: kill the
root, read stderr, structured failure); otherwise the exit check (lines
192-205); then the truthiness-guarded timeout check (lines 207-219: kill the
root, structured failure); then sleep and repeat. -/
def consoleLoop (env : ConsoleEnv) (rt : Option Nat) : Nat → Nat → ConsoleOutcome
  | 0, t =>
    { success := none, errorMsg := none, returncode := none, stderrOut := none,
      spawned := true, killedRoot := false, endTick := t }
  | fuel+1, t =>
    match env.raiseAt t with
    | some msg =>
      { success := some false, errorMsg := some msg, returncode := none,
        stderrOut := some (env.stderrAt t), spawned := true, killedRoot := true,
        endTick := t }
    | none =>
      match env.ret t with
      | some code =>
        { success := some (code == 0),
          errorMsg := if code == 0 then none else some ("failed to run"),
          returncode := some code, stderrOut := some (env.stderrAt t),
          spawned := true, killedRoot := false, endTick := t }
      | none =>
        match rt with
        | some v =>
          if v != 0 && decide (v < env.elapsed t) then
            { success := some false,
              errorMsg := some ("time out" ++ toString v ++ "seconds. terminate now"),
              returncode := none, stderrOut := some (env.stderrAt t),
              spawned := true, killedRoot := true, endTick := t }
          else consoleLoop env rt fuel (t+1)
        | none => consoleLoop env rt fuel (t+1)

/-- `run_main_as_console_app` (lines 165-235).  The source performs no
existence check on `main_path`: whatever the disk state (`fileOnDisk` records
it), the child is spawned unconditionally at line 180. -/
def run_main_as_console_app (_fileOnDisk : Bool) (env : ConsoleEnv)
    (rt : Option Nat) (fuel : Nat) : ConsoleOutcome :=
  consoleLoop env rt fuel 0

/-- Pids signaled by a console run: its kill paths call `process.kill()`,
which signals only the root pid. -/
def consoleSignaledPids (out : ConsoleOutcome) (rootPid : Nat) : List Nat :=
  if out.killedRoot then processKill rootPid else []

/-- How `process.communicate` ends for `execute_python_code`: normal
completion, a `TimeoutExpired` (after which the code kills the root and drains
the remaining output, lines 39-51), or any other exception (caught by the
outer handler, lines 62-69). -/
inductive CommResult
  | completed (stdoutS stderrS : String) (code : Int)
  | timedOutComm (stdoutS stderrS : String) (code : Int)
  | raised (msg : String)
deriving DecidableEq

/-- Observable outcome of one `execute_python_code` call, mirroring the result
dict plus whether a child process was spawned. -/
structure ExecOutcome where
  success : Option Bool
  errorMsg : Option String
  stdoutOut : Option String
  stderrOut : Option String
  returncode : Option Int
  spawned : Bool
deriving DecidableEq

/-- Python rendering of the timeout value in the message of line 46. -/
def optTimeoutStr : Option Nat → String
  | some v => toString v
  | none => "None"

/-- `execute_python_code` (lines 13-69): the only runner that checks that the
entry file exists before spawning (lines 20-21). -/
def execute_python_code (fileOnDisk : Bool) (absPath : String)
    (timeout : Option Nat) (comm : CommResult) : ExecOutcome :=
  if fileOnDisk then
    match comm with
    | CommResult.completed out err code =>
      { success := some (code == 0), errorMsg := none, stdoutOut := some out,
        stderrOut := some err, returncode := some code, spawned := true }
    | CommResult.timedOutComm out err code =>
      { success := some false,
        errorMsg := some ("timeout " ++ optTimeoutStr timeout ++ " seconds"),
        stdoutOut := some out, stderrOut := some err, returncode := some code,
        spawned := true }
    | CommResult.raised msg =>
      { success := some false, errorMsg := some ("Execution exception: " ++ msg),
        stdoutOut := some (""), stderrOut := some msg, returncode := none,
        spawned := true }
  else
    { success := some false, errorMsg := some ("file not found " ++ absPath),
      stdoutOut := none, stderrOut := none, returncode := none, spawned := false }

/-- The output cursor of the supervision loop at the start of tick `t`:
`last_len` is 0 initially (line 129) and after the drain at tick `t` becomes
the buffer length (line 136). -/
def lastLenAt (env : WebEnv) : Nat → Nat
  | 0 => 0
  | t+1 => (env.buffer t).length

/-- The batch `new_lines = output_lines[last_len:]` drained at tick `t`
(line 135). -/
def batchAt (env : WebEnv) (t : Nat) : List String :=
  (env.buffer t).drop (lastLenAt env t)

/-- Concatenation, in order, of the batches drained at ticks `0..n`. -/
def joinBatches (env : WebEnv) : Nat → List String
  | 0 => batchAt env 0
  | n+1 => joinBatches env n ++ batchAt env (n+1)

/-! ### Helper lemmas about the crash scan -/

theorem crashTail_eq_none_iff (l : List String) :
    crashTail l = none ↔ ∀ x ∈ l, containsMarker x = false := by
  induction l with
  | nil => simp [crashTail]
  | cons a l ih =>
    by_cases ha : containsMarker a = true
    · simp [crashTail, ha]
    · have ha' : containsMarker a = false := by
        cases h : containsMarker a
        · rfl
        · exact absurd h ha
      simp [crashTail, ha', ih]

theorem crashTail_append (l₁ l₂ : List String)
    (h : ∀ x ∈ l₁, containsMarker x = false) :
    crashTail (l₁ ++ l₂) = crashTail l₂ := by
  induction l₁ with
  | nil => rfl
  | cons a l ih =>
    have ha : containsMarker a = false := h a (List.mem_cons_self a l)
    simp only [List.cons_append, crashTail, ha]
    exact ih (fun x hx => h x (List.mem_cons_of_mem a hx))

theorem crashTail_mem (l : List String) (s : String) (h : crashTail l = some s) :
    ∃ x ∈ l, containsMarker x = true := by
  by_contra hnone
  push_neg at hnone
  have : crashTail l = none := by
    rw [crashTail_eq_none_iff]
    intro x hx
    cases hm : containsMarker x
    · rfl
    · exact absurd hm (hnone x hx)
  rw [this] at h
  exact Option.noConfusion h

/-! ### Step lemmas for the service supervision loop -/

theorem webAppLoop_step_raise (env : WebEnv) (rt : Option Nat)
    (fuel t lastLen : Nat) (msg : String) (hr : env.raiseAt t = some msg) :
    webAppLoop env rt (fuel+1) t lastLen =
      { exit := AppExit.uncaughtExn, retVal := none, serverError := none,
        serverUrl := none, exnMsg := some msg, killedTree := false, endTick := t } := by
  simp only [webAppLoop, hr]

theorem webAppLoop_step_intr_exited (env : WebEnv) (rt : Option Nat)
    (fuel t lastLen : Nat) (hr : env.raiseAt t = none)
    (hi : env.interruptAt t = true) (he : env.exited t = true) :
    webAppLoop env rt (fuel+1) t lastLen =
      { exit := AppExit.interrupted, retVal := some true, serverError := none,
        serverUrl := none, exnMsg := none, killedTree := false, endTick := t } := by
  simp only [webAppLoop, hr, hi, he, if_true]

theorem webAppLoop_step_intr_alive (env : WebEnv) (rt : Option Nat)
    (fuel t lastLen : Nat) (hr : env.raiseAt t = none)
    (hi : env.interruptAt t = true) (he : env.exited t = false) :
    webAppLoop env rt (fuel+1) t lastLen =
      { exit := AppExit.interrupted, retVal := some true, serverError := none,
        serverUrl := none, exnMsg := none, killedTree := true, endTick := t } := by
  simp only [webAppLoop, hr, hi, he, if_true, Bool.false_eq_true, if_false]

theorem webAppLoop_step_crash (env : WebEnv) (rt : Option Nat)
    (fuel t lastLen : Nat) (tb : String) (hr : env.raiseAt t = none)
    (hi : env.interruptAt t = false)
    (hc : crashTail ((env.buffer t).drop lastLen) = some tb) :
    webAppLoop env rt (fuel+1) t lastLen =
      { exit := AppExit.crashed, retVal := some false, serverError := some tb,
        serverUrl := none, exnMsg := none, killedTree := true, endTick := t } := by
  simp only [webAppLoop, hr, hi, hc, Bool.false_eq_true, if_false]

theorem webAppLoop_step_exit (env : WebEnv) (rt : Option Nat)
    (fuel t lastLen : Nat) (hr : env.raiseAt t = none)
    (hi : env.interruptAt t = false)
    (hc : crashTail ((env.buffer t).drop lastLen) = none)
    (he : env.exited t = true) :
    webAppLoop env rt (fuel+1) t lastLen =
      { exit := AppExit.unexpectedExit, retVal := some false,
        serverError := some ("Web server stopped unexpectedly"),
        serverUrl := none, exnMsg := none, killedTree := false, endTick := t } := by
  simp only [webAppLoop, hr, hi, hc, he, Bool.false_eq_true, if_false, if_true]

theorem webAppLoop_step_timeout (env : WebEnv) (rt : Option Nat)
    (fuel t lastLen : Nat) (hr : env.raiseAt t = none)
    (hi : env.interruptAt t = false)
    (hc : crashTail ((env.buffer t).drop lastLen) = none)
    (he : env.exited t = false) (hg : timeoutGuard rt (env.elapsed t) = true) :
    webAppLoop env rt (fuel+1) t lastLen =
      { exit := AppExit.timedOut, retVal := some true, serverError := none,
        serverUrl := none, exnMsg := none, killedTree := true, endTick := t } := by
  simp only [webAppLoop, hr, hi, hc, he, hg, Bool.false_eq_true, if_false, if_true]

theorem webAppLoop_step_next (env : WebEnv) (rt : Option Nat)
    (fuel t lastLen : Nat) (hr : env.raiseAt t = none)
    (hi : env.interruptAt t = false)
    (hc : crashTail ((env.buffer t).drop lastLen) = none)
    (he : env.exited t = false) (hg : timeoutGuard rt (env.elapsed t) = false) :
    webAppLoop env rt (fuel+1) t lastLen =
      webAppLoop env rt fuel (t+1) (env.buffer t).length := by
  simp only [webAppLoop, hr, hi, hc, he, hg, Bool.false_eq_true, if_false]

/-! ### Step lemmas for the console poll loop -/

theorem consoleLoop_step_raise (env : ConsoleEnv) (rt : Option Nat)
    (fuel t : Nat) (msg : String) (hr : env.raiseAt t = some msg) :
    consoleLoop env rt (fuel+1) t =
      { success := some false, errorMsg := some msg, returncode := none,
        stderrOut := some (env.stderrAt t), spawned := true, killedRoot := true,
        endTick := t } := by
  simp only [consoleLoop, hr]

theorem consoleLoop_step_ret (env : ConsoleEnv) (rt : Option Nat)
    (fuel t : Nat) (code : Int) (hr : env.raiseAt t = none)
    (hret : env.ret t = some code) :
    consoleLoop env rt (fuel+1) t =
      { success := some (code == 0),
        errorMsg := if code == 0 then none else some ("failed to run"),
        returncode := some code, stderrOut := some (env.stderrAt t),
        spawned := true, killedRoot := false, endTick := t } := by
  simp only [consoleLoop, hr, hret]

theorem consoleLoop_step_timeout (env : ConsoleEnv) (v : Nat)
    (fuel t : Nat) (hr : env.raiseAt t = none) (hret : env.ret t = none)
    (hg : (v != 0 && decide (v < env.elapsed t)) = true) :
    consoleLoop env (some v) (fuel+1) t =
      { success := some false,
        errorMsg := some ("time out" ++ toString v ++ "seconds. terminate now"),
        returncode := none, stderrOut := some (env.stderrAt t),
        spawned := true, killedRoot := true, endTick := t } := by
  simp only [consoleLoop, hr, hret, hg, if_true]

theorem consoleLoop_step_next (env : ConsoleEnv) (rt : Option Nat)
    (fuel t : Nat) (hr : env.raiseAt t = none) (hret : env.ret t = none)
    (hg : timeoutGuard rt (env.elapsed t) = false) :
    consoleLoop env rt (fuel+1) t = consoleLoop env rt fuel (t+1) := by
  cases rt with
  | none => simp only [consoleLoop, hr, hret]
  | some v =>
    have hg' : (v != 0 && decide (v < env.elapsed t)) = false := hg
    simp only [consoleLoop, hr, hret, hg', Bool.false_eq_true, if_false]

theorem consoleLoop_spawned (env : ConsoleEnv) (rt : Option Nat) :
    ∀ fuel t, (consoleLoop env rt fuel t).spawned = true := by
  intro fuel
  induction fuel with
  | zero => intro t; rfl
  | succ fuel ih =>
    intro t
    cases hr : env.raiseAt t with
    | some msg => rw [consoleLoop_step_raise env rt fuel t msg hr]
    | none =>
      cases hret : env.ret t with
      | some code => rw [consoleLoop_step_ret env rt fuel t code hr hret]
      | none =>
        cases hg : timeoutGuard rt (env.elapsed t) with
        | false => rw [consoleLoop_step_next env rt fuel t hr hret hg]; exact ih (t+1)
        | true =>
          cases rt with
          | none => exact absurd hg (by simp [timeoutGuard])
          | some v => rw [consoleLoop_step_timeout env v fuel t hr hret hg]

/-! ### Lemmas about the port-probe loop -/

theorem webServerLoop_skip (env : ProbeEnv) :
    ∀ (d k t : Nat),
      (∀ s, t ≤ s → s < t + d → env.exited s = false ∧ firstOpenPort env s = none) →
      d ≤ k →
      webServerLoop env k t = webServerLoop env (k - d) (t + d) := by
  intro d
  induction d with
  | zero => intro k t _ _; rfl
  | succ d ih =>
    intro k t hclean hdk
    obtain ⟨k', rfl⟩ : ∃ k', k = k' + 1 := ⟨k - 1, by omega⟩
    obtain ⟨he, hp⟩ := hclean t (Nat.le_refl t) (by omega)
    have hstep : webServerLoop env (k' + 1) t = webServerLoop env k' (t + 1) := by
      simp only [webServerLoop, he, hp, Bool.false_eq_true, if_false]
    rw [hstep]
    have := ih k' (t + 1) (fun s hs1 hs2 => hclean s (by omega) (by omega)) (by omega)
    rw [this]
    congr 1
    · omega
    · omega

theorem find?_first_of_get {α : Type} (f : α → Bool) :
    ∀ (l : List α) (i : Nat) (hi : i < l.length),
      (∀ j : Nat, ∀ hj : j < i, f (l.get ⟨j, Nat.lt_trans hj hi⟩) = false) →
      f (l.get ⟨i, hi⟩) = true →
      l.find? f = some (l.get ⟨i, hi⟩) := by
  intro l
  induction l with
  | nil => intro i hi; exact absurd hi (Nat.not_lt_zero i)
  | cons a l ih =>
    intro i hi hbefore hf
    cases i with
    | zero =>
      exact List.find?_cons_of_pos l hf
    | succ k =>
      have ha : f a = false := hbefore 0 (Nat.succ_pos k)
      rw [List.find?_cons_of_neg]
      · exact ih k (Nat.lt_of_succ_lt_succ hi)
          (fun j hj => hbefore (j+1) (Nat.succ_lt_succ hj)) hf
      · simp [ha]

/-! ### Main lemmas about the service supervision loop -/

theorem webAppLoop_crash_spec (env : WebEnv) (rt : Option Nat)
    (hmono : ∀ s, env.buffer s <+: env.buffer (s+1))
    (hfault : ∀ s, env.raiseAt s = none ∧ env.interruptAt s = false) :
    ∀ (fuel t lastLen : Nat),
      lastLen ≤ (env.buffer t).length →
      (∀ x ∈ (env.buffer t).take lastLen, containsMarker x = false) →
      (webAppLoop env rt fuel t lastLen).exit ≠ AppExit.outOfFuel →
      (((webAppLoop env rt fuel t lastLen).exit = AppExit.crashed ↔
          ∃ x ∈ env.buffer (webAppLoop env rt fuel t lastLen).endTick,
            containsMarker x = true) ∧
       ((webAppLoop env rt fuel t lastLen).exit = AppExit.crashed →
          (webAppLoop env rt fuel t lastLen).serverError =
            crashTail (env.buffer (webAppLoop env rt fuel t lastLen).endTick) ∧
          (webAppLoop env rt fuel t lastLen).killedTree = true ∧
          (webAppLoop env rt fuel t lastLen).retVal = some false)) := by
  intro fuel
  induction fuel with
  | zero =>
    intro t lastLen _ _ hfin
    exact absurd rfl hfin
  | succ fuel ih =>
    intro t lastLen hlen htake hfin
    obtain ⟨hr, hi⟩ := hfault t
    have hsplit : (env.buffer t).take lastLen ++ (env.buffer t).drop lastLen =
        env.buffer t := List.take_append_drop lastLen (env.buffer t)
    cases hc : crashTail ((env.buffer t).drop lastLen) with
    | some tb =>
      rw [webAppLoop_step_crash env rt fuel t lastLen tb hr hi hc]
      constructor
      · constructor
        · intro _
          obtain ⟨x, hx, hmx⟩ := crashTail_mem _ _ hc
          exact ⟨x, List.drop_subset lastLen (env.buffer t) hx, hmx⟩
        · intro _; rfl
      · intro _
        refine ⟨?_, rfl, rfl⟩
        show some tb = crashTail (env.buffer t)
        rw [← hsplit, crashTail_append _ _ htake, hc]
    | none =>
      have hall : ∀ x ∈ (env.buffer t).drop lastLen, containsMarker x = false :=
        (crashTail_eq_none_iff _).mp hc
      have hbuf : ∀ x ∈ env.buffer t, containsMarker x = false := by
        intro x hx
        rw [← hsplit] at hx
        rcases List.mem_append.mp hx with h | h
        · exact htake x h
        · exact hall x h
      have hnomem : ¬ ∃ x ∈ env.buffer t, containsMarker x = true := by
        rintro ⟨x, hx, hmx⟩
        rw [hbuf x hx] at hmx
        exact Bool.noConfusion hmx
      cases he : env.exited t with
      | true =>
        rw [webAppLoop_step_exit env rt fuel t lastLen hr hi hc he]
        refine ⟨⟨fun h => AppExit.noConfusion h, fun h => absurd h hnomem⟩,
          fun h => AppExit.noConfusion h⟩
      | false =>
        cases hg : timeoutGuard rt (env.elapsed t) with
        | true =>
          rw [webAppLoop_step_timeout env rt fuel t lastLen hr hi hc he hg]
          refine ⟨⟨fun h => AppExit.noConfusion h, fun h => absurd h hnomem⟩,
            fun h => AppExit.noConfusion h⟩
        | false =>
          rw [webAppLoop_step_next env rt fuel t lastLen hr hi hc he hg] at hfin ⊢
          obtain ⟨tl, htl⟩ := hmono t
          refine ih (t+1) (env.buffer t).length (hmono t).length_le ?_ hfin
          intro x hx
          rw [← htl, List.take_left] at hx
          exact hbuf x hx

theorem webAppLoop_timedOut_of_clean (env : WebEnv) (v : Nat) (hv : v ≠ 0) :
    ∀ (d t lastLen fuel : Nat),
      (∀ s, t ≤ s → s ≤ t + d → env.raiseAt s = none ∧ env.interruptAt s = false ∧
        (∀ x ∈ env.buffer s, containsMarker x = false) ∧ env.exited s = false) →
      v < env.elapsed (t + d) →
      d < fuel →
      ((webAppLoop env (some v) fuel t lastLen).exit = AppExit.timedOut ∧
       (webAppLoop env (some v) fuel t lastLen).retVal = some true ∧
       (webAppLoop env (some v) fuel t lastLen).killedTree = true) := by
  intro d
  induction d with
  | zero =>
    intro t lastLen fuel hclean hT hfuel
    obtain ⟨f, rfl⟩ : ∃ f, fuel = f + 1 := ⟨fuel - 1, by omega⟩
    obtain ⟨h1, h2, h3, h4⟩ := hclean t (Nat.le_refl t) (by omega)
    have hc : crashTail ((env.buffer t).drop lastLen) = none :=
      (crashTail_eq_none_iff _).mpr
        (fun x hx => h3 x (List.drop_subset lastLen (env.buffer t) hx))
    have hg : timeoutGuard (some v) (env.elapsed t) = true := by
      have hT' : v < env.elapsed t := by simpa using hT
      simp [timeoutGuard, hv, hT']
    rw [webAppLoop_step_timeout env (some v) f t lastLen h1 h2 hc h4 hg]
    exact ⟨rfl, rfl, rfl⟩
  | succ d ih =>
    intro t lastLen fuel hclean hT hfuel
    obtain ⟨f, rfl⟩ : ∃ f, fuel = f + 1 := ⟨fuel - 1, by omega⟩
    obtain ⟨h1, h2, h3, h4⟩ := hclean t (Nat.le_refl t) (by omega)
    have hc : crashTail ((env.buffer t).drop lastLen) = none :=
      (crashTail_eq_none_iff _).mpr
        (fun x hx => h3 x (List.drop_subset lastLen (env.buffer t) hx))
    cases hg : timeoutGuard (some v) (env.elapsed t) with
    | true =>
      rw [webAppLoop_step_timeout env (some v) f t lastLen h1 h2 hc h4 hg]
      exact ⟨rfl, rfl, rfl⟩
    | false =>
      rw [webAppLoop_step_next env (some v) f t lastLen h1 h2 hc h4 hg]
      refine ih (t+1) (env.buffer t).length f
        (fun s hs1 hs2 => hclean s (by omega) (by omega)) ?_ (by omega)
      have : t + 1 + d = t + (d + 1) := by omega
      rw [this]
      exact hT

theorem webAppLoop_kill_iff (env : WebEnv) (rt : Option Nat) :
    ∀ (fuel t lastLen : Nat),
      (webAppLoop env rt fuel t lastLen).retVal = some false →
      ((webAppLoop env rt fuel t lastLen).killedTree = true ↔
       (webAppLoop env rt fuel t lastLen).exit = AppExit.crashed) := by
  intro fuel
  induction fuel with
  | zero =>
    intro t lastLen h
    exact absurd h (by simp [webAppLoop])
  | succ fuel ih =>
    intro t lastLen h
    cases hr : env.raiseAt t with
    | some msg =>
      rw [webAppLoop_step_raise env rt fuel t lastLen msg hr] at h
      exact absurd h (by simp)
    | none =>
      cases hi : env.interruptAt t with
      | true =>
        cases he : env.exited t with
        | true =>
          rw [webAppLoop_step_intr_exited env rt fuel t lastLen hr hi he] at h
          exact absurd h (by simp)
        | false =>
          rw [webAppLoop_step_intr_alive env rt fuel t lastLen hr hi he] at h
          exact absurd h (by simp)
      | false =>
        cases hc : crashTail ((env.buffer t).drop lastLen) with
        | some tb =>
          rw [webAppLoop_step_crash env rt fuel t lastLen tb hr hi hc]
          exact ⟨fun _ => rfl, fun _ => rfl⟩
        | none =>
          cases he : env.exited t with
          | true =>
            rw [webAppLoop_step_exit env rt fuel t lastLen hr hi hc he]
            exact ⟨fun hk => Bool.noConfusion hk, fun hk => AppExit.noConfusion hk⟩
          | false =>
            cases hg : timeoutGuard rt (env.elapsed t) with
            | true =>
              rw [webAppLoop_step_timeout env rt fuel t lastLen hr hi hc he hg] at h
              exact absurd h (by simp)
            | false =>
              rw [webAppLoop_step_next env rt fuel t lastLen hr hi hc he hg] at h ⊢
              exact ih (t+1) (env.buffer t).length h

theorem webAppLoop_zero_rt (env : WebEnv) :
    ∀ (fuel t lastLen : Nat),
      webAppLoop env (some 0) fuel t lastLen = webAppLoop env none fuel t lastLen := by
  intro fuel
  induction fuel with
  | zero => intro t lastLen; rfl
  | succ fuel ih =>
    intro t lastLen
    cases hr : env.raiseAt t with
    | some msg =>
      rw [webAppLoop_step_raise env (some 0) fuel t lastLen msg hr,
        webAppLoop_step_raise env none fuel t lastLen msg hr]
    | none =>
      cases hi : env.interruptAt t with
      | true =>
        cases he : env.exited t with
        | true =>
          rw [webAppLoop_step_intr_exited env (some 0) fuel t lastLen hr hi he,
            webAppLoop_step_intr_exited env none fuel t lastLen hr hi he]
        | false =>
          rw [webAppLoop_step_intr_alive env (some 0) fuel t lastLen hr hi he,
            webAppLoop_step_intr_alive env none fuel t lastLen hr hi he]
      | false =>
        cases hc : crashTail ((env.buffer t).drop lastLen) with
        | some tb =>
          rw [webAppLoop_step_crash env (some 0) fuel t lastLen tb hr hi hc,
            webAppLoop_step_crash env none fuel t lastLen tb hr hi hc]
        | none =>
          cases he : env.exited t with
          | true =>
            rw [webAppLoop_step_exit env (some 0) fuel t lastLen hr hi hc he,
              webAppLoop_step_exit env none fuel t lastLen hr hi hc he]
          | false =>
            have hg0 : timeoutGuard (some 0) (env.elapsed t) = false := by
              simp [timeoutGuard]
            have hgn : timeoutGuard none (env.elapsed t) = false := rfl
            rw [webAppLoop_step_next env (some 0) fuel t lastLen hr hi hc he hg0,
              webAppLoop_step_next env none fuel t lastLen hr hi hc he hgn]
            exact ih (t+1) (env.buffer t).length

theorem webAppLoop_raise_first (env : WebEnv) (rt : Option Nat) (msg : String) :
    ∀ (d t lastLen fuel : Nat),
      (∀ s, t ≤ s → s < t + d → env.raiseAt s = none ∧ env.interruptAt s = false ∧
        (∀ x ∈ env.buffer s, containsMarker x = false) ∧ env.exited s = false ∧
        timeoutGuard rt (env.elapsed s) = false) →
      env.raiseAt (t + d) = some msg →
      d < fuel →
      webAppLoop env rt fuel t lastLen =
        { exit := AppExit.uncaughtExn, retVal := none, serverError := none,
          serverUrl := none, exnMsg := some msg, killedTree := false,
          endTick := t + d } := by
  intro d
  induction d with
  | zero =>
    intro t lastLen fuel hclean hd hfuel
    obtain ⟨f, rfl⟩ : ∃ f, fuel = f + 1 := ⟨fuel - 1, by omega⟩
    have hd' : env.raiseAt t = some msg := by simpa using hd
    rw [webAppLoop_step_raise env rt f t lastLen msg hd']
    simp
  | succ d ih =>
    intro t lastLen fuel hclean hd hfuel
    obtain ⟨f, rfl⟩ : ∃ f, fuel = f + 1 := ⟨fuel - 1, by omega⟩
    obtain ⟨h1, h2, h3, h4, h5⟩ := hclean t (Nat.le_refl t) (by omega)
    have hc : crashTail ((env.buffer t).drop lastLen) = none :=
      (crashTail_eq_none_iff _).mpr
        (fun x hx => h3 x (List.drop_subset lastLen (env.buffer t) hx))
    rw [webAppLoop_step_next env rt f t lastLen h1 h2 hc h4 h5]
    have heq : t + 1 + d = t + (d + 1) := by omega
    rw [ih (t+1) (env.buffer t).length f
      (fun s hs1 hs2 => hclean s (by omega) (by omega)) (by rw [heq]; exact hd)
      (by omega), heq]

/-! ### Main lemmas about the console poll loop -/

theorem consoleLoop_timedOut_of_clean (env : ConsoleEnv) (v : Nat) (hv : v ≠ 0) :
    ∀ (d t fuel : Nat),
      (∀ s, t ≤ s → s ≤ t + d → env.raiseAt s = none ∧ env.ret s = none) →
      v < env.elapsed (t + d) →
      d < fuel →
      ((consoleLoop env (some v) fuel t).killedRoot = true ∧
       (consoleLoop env (some v) fuel t).success = some false ∧
       (consoleLoop env (some v) fuel t).errorMsg =
         some ("time out" ++ toString v ++ "seconds. terminate now")) := by
  intro d
  induction d with
  | zero =>
    intro t fuel hclean hT hfuel
    obtain ⟨f, rfl⟩ : ∃ f, fuel = f + 1 := ⟨fuel - 1, by omega⟩
    obtain ⟨h1, h2⟩ := hclean t (Nat.le_refl t) (by omega)
    have hg : (v != 0 && decide (v < env.elapsed t)) = true := by
      have hT' : v < env.elapsed t := by simpa using hT
      simp [hv, hT']
    rw [consoleLoop_step_timeout env v f t h1 h2 hg]
    exact ⟨rfl, rfl, rfl⟩
  | succ d ih =>
    intro t fuel hclean hT hfuel
    obtain ⟨f, rfl⟩ : ∃ f, fuel = f + 1 := ⟨fuel - 1, by omega⟩
    obtain ⟨h1, h2⟩ := hclean t (Nat.le_refl t) (by omega)
    cases hg : (v != 0 && decide (v < env.elapsed t)) with
    | true =>
      rw [consoleLoop_step_timeout env v f t h1 h2 hg]
      exact ⟨rfl, rfl, rfl⟩
    | false =>
      rw [consoleLoop_step_next env (some v) f t h1 h2 hg]
      refine ih (t+1) f (fun s hs1 hs2 => hclean s (by omega) (by omega)) ?_ (by omega)
      have : t + 1 + d = t + (d + 1) := by omega
      rw [this]
      exact hT

theorem consoleLoop_raise_first (env : ConsoleEnv) (rt : Option Nat) (msg : String) :
    ∀ (d t fuel : Nat),
      (∀ s, t ≤ s → s < t + d → env.raiseAt s = none ∧ env.ret s = none ∧
        timeoutGuard rt (env.elapsed s) = false) →
      env.raiseAt (t + d) = some msg →
      d < fuel →
      consoleLoop env rt fuel t =
        { success := some false, errorMsg := some msg, returncode := none,
          stderrOut := some (env.stderrAt (t + d)), spawned := true,
          killedRoot := true, endTick := t + d } := by
  intro d
  induction d with
  | zero =>
    intro t fuel hclean hd hfuel
    obtain ⟨f, rfl⟩ : ∃ f, fuel = f + 1 := ⟨fuel - 1, by omega⟩
    have hd' : env.raiseAt t = some msg := by simpa using hd
    rw [consoleLoop_step_raise env rt f t msg hd']
    simp
  | succ d ih =>
    intro t fuel hclean hd hfuel
    obtain ⟨f, rfl⟩ : ∃ f, fuel = f + 1 := ⟨fuel - 1, by omega⟩
    obtain ⟨h1, h2, h3⟩ := hclean t (Nat.le_refl t) (by omega)
    rw [consoleLoop_step_next env rt f t h1 h2 h3]
    have heq : t + 1 + d = t + (d + 1) := by omega
    rw [ih (t+1) f (fun s hs1 hs2 => hclean s (by omega) (by omega))
      (by rw [heq]; exact hd) (by omega), heq]

theorem consoleLoop_zero_rt (env : ConsoleEnv) :
    ∀ (fuel t : Nat),
      consoleLoop env (some 0) fuel t = consoleLoop env none fuel t := by
  intro fuel
  induction fuel with
  | zero => intro t; rfl
  | succ fuel ih =>
    intro t
    cases hr : env.raiseAt t with
    | some msg =>
      rw [consoleLoop_step_raise env (some 0) fuel t msg hr,
        consoleLoop_step_raise env none fuel t msg hr]
    | none =>
      cases hret : env.ret t with
      | some code =>
        rw [consoleLoop_step_ret env (some 0) fuel t code hr hret,
          consoleLoop_step_ret env none fuel t code hr hret]
      | none =>
        have hg0 : timeoutGuard (some 0) (env.elapsed t) = false := by
          simp [timeoutGuard]
        have hgn : timeoutGuard none (env.elapsed t) = false := rfl
        rw [consoleLoop_step_next env (some 0) fuel t hr hret hg0,
          consoleLoop_step_next env none fuel t hr hret hgn]
        exact ih (t+1)

/-! ### Lemmas about the tree terminator -/

theorem killChildrenLoop_all_alive (l : List PsProc)
    (h : ∀ c ∈ l, c.alive = true) :
    killChildrenLoop l = (l.map PsProc.pid, true) := by
  induction l with
  | nil => rfl
  | cons c rest ih =>
    have hc : c.alive = true := h c (List.mem_cons_self c rest)
    simp only [killChildrenLoop, hc, if_true, List.map_cons]
    rw [ih (fun d hd => h d (List.mem_cons_of_mem c hd))]

theorem killChildrenLoop_abort (pre : List PsProc) (c : PsProc) (rest : List PsProc)
    (hpre : ∀ d ∈ pre, d.alive = true) (hc : c.alive = false) :
    killChildrenLoop (pre ++ c :: rest) = (pre.map PsProc.pid, false) := by
  induction pre with
  | nil =>
    simp only [List.nil_append, killChildrenLoop, hc, Bool.false_eq_true, if_false,
      List.map_nil]
  | cons d pre ih =>
    have hd : d.alive = true := hpre d (List.mem_cons_self d pre)
    simp only [List.cons_append, killChildrenLoop, hd, if_true, List.map_cons,
      List.append_eq]
    rw [ih (fun e he => hpre e (List.mem_cons_of_mem d he))]

/-! ### Lemmas about the drain discipline -/

theorem lastLenAt_mono (env : WebEnv)
    (hmono : ∀ t, env.buffer t <+: env.buffer (t+1)) (t : Nat) :
    lastLenAt env t ≤ lastLenAt env (t+1) := by
  cases t with
  | zero => exact Nat.zero_le _
  | succ s => exact (hmono s).length_le

theorem joinBatches_eq_buffer (env : WebEnv)
    (hmono : ∀ t, env.buffer t <+: env.buffer (t+1)) :
    ∀ n, joinBatches env n = env.buffer n := by
  intro n
  induction n with
  | zero =>
    show batchAt env 0 = env.buffer 0
    simp [batchAt, lastLenAt]
  | succ n ih =>
    show joinBatches env n ++ batchAt env (n+1) = env.buffer (n+1)
    rw [ih]
    obtain ⟨tl, htl⟩ := hmono n
    show env.buffer n ++ (env.buffer (n+1)).drop (lastLenAt env (n+1)) = env.buffer (n+1)
    show env.buffer n ++ (env.buffer (n+1)).drop (env.buffer n).length = env.buffer (n+1)
    rw [← htl, List.drop_left]

/-! ### Concrete environments used by counterexamples and witnesses -/

/-- A start environment whose child never exits and never opens a port. -/
def penvN : ProbeEnv := { exited := fun _ => false, portOpen := fun _ _ => false }

/-- A start environment that opens port 5000 at the first probe tick. -/
def penvW : ProbeEnv := { exited := fun _ => false, portOpen := fun _ p => p == 5000 }

/-- A start environment that opens port 8000 at probe tick 1 only. -/
def penvP : ProbeEnv :=
  { exited := fun _ => false, portOpen := fun t p => t == 1 && p == 8000 }

/-- A quiet service session: no output, no exit, no fault; the clock advances
one second per tick. -/
def wenvT : WebEnv :=
  { buffer := fun _ => [], exited := fun _ => false, elapsed := fun t => t,
    raiseAt := fun _ => none, interruptAt := fun _ => false }

/-- A service session whose output is one crash-marker line from the start. -/
def wenvW : WebEnv :=
  { buffer := fun _ => [crashMarker], exited := fun _ => false, elapsed := fun _ => 0,
    raiseAt := fun _ => none, interruptAt := fun _ => false }

/-- A service session in which the supervision body raises at every tick. -/
def wenvR : WebEnv :=
  { buffer := fun _ => [], exited := fun _ => false, elapsed := fun _ => 0,
    raiseAt := fun _ => some ("poll failed"), interruptAt := fun _ => false }

/-- A console run whose child exits with code 2 at the first tick, which is
what the interpreter does when the entry file it was given is missing. -/
def cenvN : ConsoleEnv :=
  { ret := fun _ => some 2, stderrAt := fun _ => "python: cannot open file",
    elapsed := fun _ => 0, raiseAt := fun _ => none }

/-- A console run whose child never exits; the clock advances one second per
tick. -/
def cenvT : ConsoleEnv :=
  { ret := fun _ => none, stderrAt := fun _ => "", elapsed := fun t => t,
    raiseAt := fun _ => none }

/-- A console run whose poll body raises at the first tick. -/
def cenvR : ConsoleEnv :=
  { ret := fun _ => none, stderrAt := fun _ => "", elapsed := fun _ => 0,
    raiseAt := fun _ => some ("poll failed") }

/-- A healthy process tree: root pid 1, descendants 10 and 11, all alive. -/
def inpOK : KillInput :=
  { rootPid := 1, rootExists := true,
    children := [{ pid := 10, alive := true }, { pid := 11, alive := true }],
    rootAliveAtTerminate := true }

/-- A process tree whose first enumerated descendant has vanished by the time
its `terminate()` runs, while the second descendant and the root are alive. -/
def inpDead : KillInput :=
  { rootPid := 1, rootExists := true,
    children := [{ pid := 10, alive := false }, { pid := 11, alive := true }],
    rootAliveAtTerminate := true }

/-! ### Claim C1 -/

/-- Claim C1 (counterexample): a service run that fails with
`ServerStartTimeout` — the child neither exits nor opens a port within the
wait window — returns failure with no tree termination performed, so the
still-running child is leaked. -/
theorem startTimeout_failure_leaves_process_unkilled :
    (run_main_web_app penvN wenvT 3 none 1).retVal = some false ∧
    (run_main_web_app penvN wenvT 3 none 1).exit = AppExit.startTimeout ∧
    (run_main_web_app penvN wenvT 3 none 1).killedTree = false := by decide

/-- Claim C1 (amended): among the failure returns of `run_main_web_app`, the
process tree is terminated if and only if the failure is the crash-detected
one; the `ServerNeverBound`, `ServerStartTimeout` and `UnexpectedExit` failure
paths return without invoking the tree terminator. -/
theorem service_failure_kill_iff_crash (penv : ProbeEnv) (wenv : WebEnv)
    (maxTicks : Nat) (rt : Option Nat) (fuel : Nat)
    (h : (run_main_web_app penv wenv maxTicks rt fuel).retVal = some false) :
    ((run_main_web_app penv wenv maxTicks rt fuel).killedTree = true ↔
     (run_main_web_app penv wenv maxTicks rt fuel).exit = AppExit.crashed) := by
  revert h
  simp only [run_main_web_app]
  cases run_web_server penv maxTicks with
  | neverBound =>
    intro _
    exact ⟨fun hk => Bool.noConfusion hk, fun hk => AppExit.noConfusion hk⟩
  | startTimeout =>
    intro _
    exact ⟨fun hk => Bool.noConfusion hk, fun hk => AppExit.noConfusion hk⟩
  | bound url =>
    intro h
    exact webAppLoop_kill_iff wenv rt fuel 0 0 h

/-- Claim C1 (witness for the amended theorem), at a crashing service run. -/
theorem service_failure_kill_iff_crash_witness :
    ((run_main_web_app penvW wenvW 3 none 2).killedTree = true ↔
     (run_main_web_app penvW wenvW 3 none 2).exit = AppExit.crashed) :=
  service_failure_kill_iff_crash penvW wenvW 3 none 2 (by decide)

/-! ### Claim C2 -/

/-- Claim C2: for a service run whose startup bound a URL, with append-only
output and no injected fault or interrupt, and which reached a terminal state
within fuel: the run ends crash-detected iff some captured output line contains
the crash marker; and on crash, `server_error` is exactly the scan of the
captured buffer — the first marker line joined with every following captured
line — with the process tree terminated and `False` returned. -/
theorem crash_marker_iff_crash_failure (penv : ProbeEnv) (wenv : WebEnv)
    (maxTicks : Nat) (rt : Option Nat) (fuel : Nat) (url : String)
    (hbind : run_web_server penv maxTicks = ProbeResult.bound url)
    (hmono : ∀ s, wenv.buffer s <+: wenv.buffer (s+1))
    (hfault : ∀ s, wenv.raiseAt s = none ∧ wenv.interruptAt s = false)
    (hfin : (run_main_web_app penv wenv maxTicks rt fuel).exit ≠ AppExit.outOfFuel) :
    ((run_main_web_app penv wenv maxTicks rt fuel).exit = AppExit.crashed ↔
       ∃ x ∈ wenv.buffer (run_main_web_app penv wenv maxTicks rt fuel).endTick,
         containsMarker x = true) ∧
    ((run_main_web_app penv wenv maxTicks rt fuel).exit = AppExit.crashed →
       (run_main_web_app penv wenv maxTicks rt fuel).serverError =
         crashTail (wenv.buffer (run_main_web_app penv wenv maxTicks rt fuel).endTick) ∧
       (run_main_web_app penv wenv maxTicks rt fuel).killedTree = true ∧
       (run_main_web_app penv wenv maxTicks rt fuel).retVal = some false) := by
  have hrw : run_main_web_app penv wenv maxTicks rt fuel =
      { webAppLoop wenv rt fuel 0 0 with serverUrl := some url } := by
    simp only [run_main_web_app, hbind]
  rw [hrw] at hfin ⊢
  have htake : ∀ x ∈ (wenv.buffer 0).take 0, containsMarker x = false := by
    intro x hx
    rw [List.take_zero] at hx
    exact absurd hx (List.not_mem_nil x)
  exact webAppLoop_crash_spec wenv rt hmono hfault fuel 0 0 (Nat.zero_le _) htake hfin

/-- Claim C2 (witness), at a run whose output is a crash-marker line. -/
theorem crash_marker_iff_crash_failure_witness :
    ((run_main_web_app penvW wenvW 3 none 2).exit = AppExit.crashed ↔
       ∃ x ∈ wenvW.buffer (run_main_web_app penvW wenvW 3 none 2).endTick,
         containsMarker x = true) ∧
    ((run_main_web_app penvW wenvW 3 none 2).exit = AppExit.crashed →
       (run_main_web_app penvW wenvW 3 none 2).serverError =
         crashTail (wenvW.buffer (run_main_web_app penvW wenvW 3 none 2).endTick) ∧
       (run_main_web_app penvW wenvW 3 none 2).killedTree = true ∧
       (run_main_web_app penvW wenvW 3 none 2).retVal = some false) :=
  crash_marker_iff_crash_failure penvW wenvW 3 none 2 (urlOf 5000) (by decide)
    (fun _ => List.prefix_rfl) (fun _ => ⟨rfl, rfl⟩) (by decide)

/-! ### Claim C3 -/

/-- Claim C3: the port probe checks the fixed candidate list in order on each
poll iteration; if the process is seen exited first, the run fails
`ServerNeverBound`; at the first iteration where some candidate is open, the
URL of the earliest open candidate in list order is returned; if the window
elapses with no exit and no open port, the run fails `ServerStartTimeout`. -/
theorem port_probe_first_open_or_failure (env : ProbeEnv) (maxTicks : Nat) :
    (∀ T, T < maxTicks →
      (∀ s, s < T → env.exited s = false ∧ ∀ q ∈ defaultPorts, env.portOpen s q = false) →
      ((env.exited T = true → run_web_server env maxTicks = ProbeResult.neverBound) ∧
       (env.exited T = false →
         ∀ i : Nat, ∀ hi : i < defaultPorts.length,
           env.portOpen T (defaultPorts.get ⟨i, hi⟩) = true →
           (∀ j : Nat, ∀ hj : j < i,
             env.portOpen T (defaultPorts.get ⟨j, Nat.lt_trans hj hi⟩) = false) →
           run_web_server env maxTicks =
             ProbeResult.bound (urlOf (defaultPorts.get ⟨i, hi⟩))))) ∧
    ((∀ s, s < maxTicks →
        env.exited s = false ∧ ∀ q ∈ defaultPorts, env.portOpen s q = false) →
      run_web_server env maxTicks = ProbeResult.startTimeout) := by
  constructor
  · intro T hT hclean
    have hcl : ∀ s, 0 ≤ s → s < 0 + T →
        env.exited s = false ∧ firstOpenPort env s = none := by
      intro s _ hs
      obtain ⟨he, hp⟩ := hclean s (by omega)
      refine ⟨he, ?_⟩
      apply List.find?_eq_none.mpr
      intro q hq
      simp [hp q hq]
    have hskip := webServerLoop_skip env T maxTicks 0 hcl (Nat.le_of_lt hT)
    rw [Nat.zero_add] at hskip
    obtain ⟨m, hm⟩ : ∃ m, maxTicks - T = m + 1 := ⟨maxTicks - T - 1, by omega⟩
    rw [hm] at hskip
    constructor
    · intro hex
      simp only [run_web_server]
      rw [hskip]
      simp only [webServerLoop, hex, if_true]
    · intro hex i hi hopen hbefore
      have hfind : firstOpenPort env T = some (defaultPorts.get ⟨i, hi⟩) :=
        find?_first_of_get (fun p => env.portOpen T p) defaultPorts i hi hbefore hopen
      simp only [run_web_server]
      rw [hskip]
      simp only [webServerLoop, hex, Bool.false_eq_true, if_false, hfind]
  · intro hclean
    have hcl : ∀ s, 0 ≤ s → s < 0 + maxTicks →
        env.exited s = false ∧ firstOpenPort env s = none := by
      intro s _ hs
      obtain ⟨he, hp⟩ := hclean s (by omega)
      refine ⟨he, ?_⟩
      apply List.find?_eq_none.mpr
      intro q hq
      simp [hp q hq]
    have hskip := webServerLoop_skip env maxTicks maxTicks 0 hcl (Nat.le_refl maxTicks)
    rw [Nat.zero_add, Nat.sub_self] at hskip
    simp only [run_web_server]
    rw [hskip]
    rfl

/-- Claim C3 (witness): port 8000 opens at probe tick 1 and is returned. -/
theorem port_probe_first_open_or_failure_witness :
    run_web_server penvP 4 = ProbeResult.bound (urlOf 8000) := by
  have hclean : ∀ s, s < 1 → penvP.exited s = false ∧
      ∀ q ∈ defaultPorts, penvP.portOpen s q = false := by
    intro s hs
    match s, hs with
    | 0, _ => exact ⟨rfl, by decide⟩
  have hi : (1 : Nat) < defaultPorts.length := by decide
  have hbefore : ∀ j : Nat, ∀ hj : j < 1,
      penvP.portOpen 1 (defaultPorts.get ⟨j, Nat.lt_trans hj hi⟩) = false := by
    intro j hj
    match j, hj with
    | 0, _ => rfl
  exact ((port_probe_first_open_or_failure penvP 4).1 1 (by decide) hclean).2 rfl 1 hi
    rfl hbefore

/-! ### Claim C4 -/

/-- Claim C4: a service run with a nonzero timeout, whose startup bound a URL
and in which no fault, crash marker or exit occurs up to the tick where the
elapsed time exceeds the timeout, terminates the process tree and returns
success (`True`). -/
theorem run_timeout_returns_success (penv : ProbeEnv) (wenv : WebEnv)
    (maxTicks v fuel T : Nat) (url : String)
    (hbind : run_web_server penv maxTicks = ProbeResult.bound url)
    (hv : v ≠ 0)
    (hclean : ∀ s, s ≤ T → wenv.raiseAt s = none ∧ wenv.interruptAt s = false ∧
        (∀ x ∈ wenv.buffer s, containsMarker x = false) ∧ wenv.exited s = false)
    (hT : v < wenv.elapsed T) (hfuel : T < fuel) :
    (run_main_web_app penv wenv maxTicks (some v) fuel).exit = AppExit.timedOut ∧
    (run_main_web_app penv wenv maxTicks (some v) fuel).retVal = some true ∧
    (run_main_web_app penv wenv maxTicks (some v) fuel).killedTree = true := by
  have hrw : run_main_web_app penv wenv maxTicks (some v) fuel =
      { webAppLoop wenv (some v) fuel 0 0 with serverUrl := some url } := by
    simp only [run_main_web_app, hbind]
  rw [hrw]
  exact webAppLoop_timedOut_of_clean wenv v hv T 0 0 fuel
    (fun s _ hs2 => hclean s (by omega)) (by simpa using hT) (by omega)

/-- Claim C4 (witness): a 1-second timeout on a quiet service run ends in
success with the tree terminated. -/
theorem run_timeout_returns_success_witness :
    (run_main_web_app penvW wenvT 3 (some 1) 4).exit = AppExit.timedOut ∧
    (run_main_web_app penvW wenvT 3 (some 1) 4).retVal = some true ∧
    (run_main_web_app penvW wenvT 3 (some 1) 4).killedTree = true :=
  run_timeout_returns_success penvW wenvT 3 1 4 2 (urlOf 5000) (by decide) (by decide)
    (fun s _ => ⟨rfl, rfl, fun x hx => absurd hx (List.not_mem_nil x), rfl⟩)
    (by decide) (by decide)

/-! ### Claim C5 -/

/-- Claim C5 (counterexample): `run_main_as_console_app` performs no existence
check — with the entry file absent from disk it still spawns a child (the
interpreter, which then exits nonzero), and the result error is the generic
`failed to run`, not a `file not found` error. -/
theorem console_spawns_despite_missing_file :
    (run_main_as_console_app false cenvN none 2).spawned = true ∧
    (run_main_as_console_app false cenvN none 2).success = some false ∧
    (run_main_as_console_app false cenvN none 2).errorMsg = some ("failed to run") := by
  decide

/-- Claim C5 (amended): only `execute_python_code` checks that the entry file
exists; with the file absent it fails immediately with the `file not found`
error and spawns nothing, while `run_main_as_console_app` spawns a child
regardless of the disk state. -/
theorem file_not_found_check_scope (p : String) (tmo : Option Nat)
    (comm : CommResult) (b : Bool) (cenv : ConsoleEnv) (rt : Option Nat)
    (fuel : Nat) :
    (execute_python_code false p tmo comm).success = some false ∧
    (execute_python_code false p tmo comm).errorMsg = some ("file not found " ++ p) ∧
    (execute_python_code false p tmo comm).spawned = false ∧
    (run_main_as_console_app b cenv rt fuel).spawned = true :=
  ⟨rfl, rfl, rfl, consoleLoop_spawned cenv rt fuel 0⟩

/-! ### Claim C6 -/

/-- Claim C6 (counterexample): a console run that reaches its timeout kills
only the root process — with root pid 1 and a descendant pid 2, the set of
signaled pids is exactly the singleton root, so the descendant is left
running after the call returns. -/
theorem console_timeout_kills_root_only :
    (run_main_as_console_app true cenvT (some 1) 5).errorMsg =
      some ("time out" ++ toString 1 ++ "seconds. terminate now") ∧
    (run_main_as_console_app true cenvT (some 1) 5).killedRoot = true ∧
    consoleSignaledPids (run_main_as_console_app true cenvT (some 1) 5) 1 = [1] ∧
    (consoleSignaledPids (run_main_as_console_app true cenvT (some 1) 5) 1).contains 2
      = false := by
  decide

/-- Claim C6 (amended): a service run reaching its timeout invokes the tree
terminator, which — on a tree whose members are all still alive — signals
every descendant and then the root; a console run reaching its timeout calls
`process.kill()`, which signals only the root pid, so console-mode descendants
are not terminated. -/
theorem timeout_kill_scope (wenv : WebEnv) (v fuel T : Nat)
    (inp : KillInput) (cenv : ConsoleEnv) (cv cfuel S : Nat)
    (hv : v ≠ 0)
    (hclean : ∀ s, s ≤ T → wenv.raiseAt s = none ∧ wenv.interruptAt s = false ∧
        (∀ x ∈ wenv.buffer s, containsMarker x = false) ∧ wenv.exited s = false)
    (hT : v < wenv.elapsed T) (hfuel : T < fuel)
    (hroot : inp.rootExists = true)
    (halive : ∀ c ∈ inp.children, c.alive = true)
    (hralive : inp.rootAliveAtTerminate = true)
    (hcv : cv ≠ 0)
    (hcclean : ∀ s, s ≤ S → cenv.raiseAt s = none ∧ cenv.ret s = none)
    (hS : cv < cenv.elapsed S) (hcfuel : S < cfuel) :
    (webAppLoop wenv (some v) fuel 0 0).exit = AppExit.timedOut ∧
    (webAppLoop wenv (some v) fuel 0 0).killedTree = true ∧
    (_kill_process_tree inp).signaled = inp.children.map PsProc.pid ++ [inp.rootPid] ∧
    (_kill_process_tree inp).rootSignaled = true ∧
    (consoleLoop cenv (some cv) cfuel 0).killedRoot = true ∧
    consoleSignaledPids (consoleLoop cenv (some cv) cfuel 0) inp.rootPid =
      processKill inp.rootPid := by
  obtain ⟨he, hrv, hk⟩ := webAppLoop_timedOut_of_clean wenv v hv T 0 0 fuel
    (fun s _ hs2 => hclean s (by omega)) (by simpa using hT) (by omega)
  obtain ⟨hck, hcs, hcm⟩ := consoleLoop_timedOut_of_clean cenv cv hcv S 0 cfuel
    (fun s _ hs2 => hcclean s (by omega)) (by simpa using hS) (by omega)
  have hkt : _kill_process_tree inp =
      { signaled := inp.children.map PsProc.pid ++ [inp.rootPid],
        rootSignaled := true } := by
    simp only [_kill_process_tree, hroot, if_true,
      killChildrenLoop_all_alive inp.children halive, hralive]
  refine ⟨he, hk, ?_, ?_, hck, ?_⟩
  · rw [hkt]
  · rw [hkt]
  · simp only [consoleSignaledPids, hck, if_true]

/-- Claim C6 (witness for the amended theorem), on a healthy two-descendant
tree and concrete quiet runs. -/
theorem timeout_kill_scope_witness :
    (webAppLoop wenvT (some 1) 4 0 0).exit = AppExit.timedOut ∧
    (webAppLoop wenvT (some 1) 4 0 0).killedTree = true ∧
    (_kill_process_tree inpOK).signaled = inpOK.children.map PsProc.pid ++ [inpOK.rootPid] ∧
    (_kill_process_tree inpOK).rootSignaled = true ∧
    (consoleLoop cenvT (some 1) 4 0).killedRoot = true ∧
    consoleSignaledPids (consoleLoop cenvT (some 1) 4 0) inpOK.rootPid =
      processKill inpOK.rootPid :=
  timeout_kill_scope wenvT 1 4 2 inpOK cenvT 1 4 2 (by decide)
    (fun s _ => ⟨rfl, rfl, fun x hx => absurd hx (List.not_mem_nil x), rfl⟩)
    (by decide) (by decide) rfl (by decide) rfl (by decide)
    (fun s _ => ⟨rfl, rfl⟩) (by decide) (by decide)

/-! ### Claim C7 -/

/-- Claim C7 (counterexample): an unexpected exception in the service
supervision loop is not caught — only `KeyboardInterrupt` has a handler — so
it propagates out of `run_main_web_app` with no kill and no structured
result. -/
theorem service_exception_uncaught :
    (webAppLoop wenvR none 2 0 0).exit = AppExit.uncaughtExn ∧
    (webAppLoop wenvR none 2 0 0).exnMsg = some ("poll failed") ∧
    (webAppLoop wenvR none 2 0 0).killedTree = false ∧
    (webAppLoop wenvR none 2 0 0).retVal = none := by
  decide

/-- Claim C7 (amended): in console mode an unexpected exception during
supervision is caught, the process is killed and a structured failure carrying
the exception text is returned; in service mode only `KeyboardInterrupt` is
caught, and any other exception propagates uncaught with no kill and no
structured result. -/
theorem exception_handling_by_mode (cenv : ConsoleEnv) (rt : Option Nat)
    (fuel T : Nat) (msg : String)
    (hfuel : T < fuel)
    (hclean : ∀ t, t < T → cenv.raiseAt t = none ∧ cenv.ret t = none ∧
        timeoutGuard rt (cenv.elapsed t) = false)
    (hT : cenv.raiseAt T = some msg)
    (wenv : WebEnv) (wrt : Option Nat) (wfuel S : Nat) (wmsg : String)
    (hwfuel : S < wfuel)
    (hwclean : ∀ t, t < S → wenv.raiseAt t = none ∧ wenv.interruptAt t = false ∧
        (∀ x ∈ wenv.buffer t, containsMarker x = false) ∧ wenv.exited t = false ∧
        timeoutGuard wrt (wenv.elapsed t) = false)
    (hS : wenv.raiseAt S = some wmsg) :
    ((run_main_as_console_app true cenv rt fuel).success = some false ∧
     (run_main_as_console_app true cenv rt fuel).errorMsg = some msg ∧
     (run_main_as_console_app true cenv rt fuel).killedRoot = true) ∧
    ((webAppLoop wenv wrt wfuel 0 0).exit = AppExit.uncaughtExn ∧
     (webAppLoop wenv wrt wfuel 0 0).exnMsg = some wmsg ∧
     (webAppLoop wenv wrt wfuel 0 0).killedTree = false ∧
     (webAppLoop wenv wrt wfuel 0 0).retVal = none) := by
  have hc := consoleLoop_raise_first cenv rt msg T 0 fuel
    (fun s _ hs2 => hclean s (by omega)) (by simpa using hT) (by omega)
  have hw := webAppLoop_raise_first wenv wrt wmsg S 0 0 wfuel
    (fun s _ hs2 => hwclean s (by omega)) (by simpa using hS) (by omega)
  constructor
  · simp only [run_main_as_console_app]
    rw [hc]
    exact ⟨rfl, rfl, rfl⟩
  · rw [hw]
    exact ⟨rfl, rfl, rfl, rfl⟩

/-- Claim C7 (witness for the amended theorem): concrete runs raising at the
first tick. -/
theorem exception_handling_by_mode_witness :
    ((run_main_as_console_app true cenvR none 2).success = some false ∧
     (run_main_as_console_app true cenvR none 2).errorMsg = some ("poll failed") ∧
     (run_main_as_console_app true cenvR none 2).killedRoot = true) ∧
    ((webAppLoop wenvR none 2 0 0).exit = AppExit.uncaughtExn ∧
     (webAppLoop wenvR none 2 0 0).exnMsg = some ("poll failed") ∧
     (webAppLoop wenvR none 2 0 0).killedTree = false ∧
     (webAppLoop wenvR none 2 0 0).retVal = none) :=
  exception_handling_by_mode cenvR none 2 0 ("poll failed") (by decide)
    (fun t ht => absurd ht (Nat.not_lt_zero t)) rfl
    wenvR none 2 0 ("poll failed") (by decide)
    (fun t ht => absurd ht (Nat.not_lt_zero t)) rfl

/-! ### Claim C8 -/

/-- Claim C8: with the buffer append-only (the content at each tick a prefix
of the next), concatenating in order the batches drained at ticks `0..n` yields
exactly the buffer content at tick `n` — no line duplicated, skipped or
reordered — and the drain cursor never decreases. -/
theorem drain_lossless_order_preserving (env : WebEnv)
    (hmono : ∀ t, env.buffer t <+: env.buffer (t+1)) (n t : Nat) :
    joinBatches env n = env.buffer n ∧ lastLenAt env t ≤ lastLenAt env (t+1) :=
  ⟨joinBatches_eq_buffer env hmono n, lastLenAt_mono env hmono t⟩

/-- Claim C8 (witness), on a constant two-line buffer. -/
theorem drain_lossless_order_preserving_witness :
    joinBatches wenvW 1 = wenvW.buffer 1 ∧ lastLenAt wenvW 3 ≤ lastLenAt wenvW 4 :=
  drain_lossless_order_preserving wenvW (fun _ => List.prefix_rfl) 1 3

/-! ### Claim C9 -/

/-- Claim C9 (counterexample): with the root alive and a first descendant that
vanished before its `terminate()` ran, the `NoSuchProcess` raised inside the
children loop aborts the whole body: the live second descendant is never
signaled and the root never receives its terminate signal, contradicting the
claimed no-op treatment. -/
theorem kill_tree_aborts_on_vanished_child :
    (_kill_process_tree inpDead).rootSignaled = false ∧
    (_kill_process_tree inpDead).signaled = [] := by
  decide

/-- Claim C9 (amended): `_kill_process_tree` signals descendants before the
root, and a vanished root is a successful no-op — but only when no descendant
vanishes mid-loop: if every enumerated descendant is still alive, each is
signaled in order and then the root (when the root itself is alive at that
point); a missing root yields the empty no-op; and if some descendant has
vanished, the loop aborts at it, skipping the remaining descendants and the
terminate signal of the root. -/
theorem kill_tree_order_and_idempotence (inp : KillInput) :
    (inp.rootExists = false →
      _kill_process_tree inp = { signaled := [], rootSignaled := false }) ∧
    (inp.rootExists = true → (∀ c ∈ inp.children, c.alive = true) →
      (_kill_process_tree inp).signaled =
        inp.children.map PsProc.pid ++
          (if inp.rootAliveAtTerminate then [inp.rootPid] else []) ∧
      (_kill_process_tree inp).rootSignaled = inp.rootAliveAtTerminate) ∧
    (∀ pre c rest, inp.rootExists = true → inp.children = pre ++ c :: rest →
      (∀ d ∈ pre, d.alive = true) → c.alive = false →
      (_kill_process_tree inp).signaled = pre.map PsProc.pid ∧
      (_kill_process_tree inp).rootSignaled = false) := by
  refine ⟨?_, ?_, ?_⟩
  · intro hroot
    simp only [_kill_process_tree, hroot, Bool.false_eq_true, if_false]
  · intro hroot halive
    have hloop := killChildrenLoop_all_alive inp.children halive
    cases hra : inp.rootAliveAtTerminate with
    | true =>
      constructor
      · simp only [_kill_process_tree, hroot, if_true, hloop, hra]
      · simp only [_kill_process_tree, hroot, if_true, hloop, hra]
    | false =>
      constructor
      · simp only [_kill_process_tree, hroot, if_true, hloop, hra, Bool.false_eq_true,
          if_false, List.append_nil]
      · simp only [_kill_process_tree, hroot, if_true, hloop, hra, Bool.false_eq_true,
          if_false]
  · intro pre c rest hroot hch hpre hc
    have hloop := killChildrenLoop_abort pre c rest hpre hc
    constructor
    · simp only [_kill_process_tree, hroot, if_true, hch, hloop, Bool.false_eq_true,
        if_false]
    · simp only [_kill_process_tree, hroot, if_true, hch, hloop, Bool.false_eq_true,
        if_false]

/-- Claim C9 (witness for the amended theorem), on a healthy tree: descendants
10 and 11 are signaled in order before root 1. -/
theorem kill_tree_order_and_idempotence_witness :
    (_kill_process_tree inpOK).signaled = [10, 11, 1] ∧
    (_kill_process_tree inpOK).rootSignaled = true := by
  have h := (kill_tree_order_and_idempotence inpOK).2.1 rfl (by decide)
  exact ⟨h.1.trans (by decide), h.2⟩

/-! ### Claim C10 -/

/-- Claim C10: a run timeout of 0 behaves exactly like no timeout at all in
both `run_main_web_app` and `run_main_as_console_app`, because the Python
guard tests the truthiness of `run_timeout` and `0` is falsy. -/
theorem zero_timeout_means_unlimited (penv : ProbeEnv) (wenv : WebEnv)
    (maxTicks fuel : Nat) (b : Bool) (cenv : ConsoleEnv) (cfuel : Nat) :
    run_main_web_app penv wenv maxTicks (some 0) fuel =
      run_main_web_app penv wenv maxTicks none fuel ∧
    run_main_as_console_app b cenv (some 0) cfuel =
      run_main_as_console_app b cenv none cfuel := by
  constructor
  · simp only [run_main_web_app]
    cases run_web_server penv maxTicks with
    | neverBound => rfl
    | startTimeout => rfl
    | bound url => rw [webAppLoop_zero_rt]
  · simp only [run_main_as_console_app]
    exact consoleLoop_zero_rt cenv cfuel 0
